import Mathlib

/-!
Shallow embedding of the super-clipboard client (React/TypeScript) and of the
spec-level server store it talks to.  Data model and operations are translated
from `src/store/useClipboardStore.ts`, `src/App.tsx`, `src/utils/generators.ts`
and `src/utils/api.ts`; timestamps are modelled as `Int` milliseconds, counts
as `Nat`.
-/

namespace SuperClipboard

/-- Type `ClipType` from `useClipboardStore.ts`: `"text" | "file"`. -/
inductive ClipType where
  | text
  | file
deriving DecidableEq

/-- Structure `RemoteFileInfo` from `useClipboardStore.ts`. -/
structure RemoteFileInfo where
  name : String
  size : Nat
  type : String
  downloadUrl : String
deriving DecidableEq

/-- Structure `RemoteClipPayload` from `useClipboardStore.ts`. -/
structure RemoteClipPayload where
  text : Option String
  file : Option RemoteFileInfo
deriving DecidableEq

/-- Structure `RemoteClip` from `useClipboardStore.ts`. -/
structure RemoteClip where
  id : String
  type : ClipType
  createdAt : Int
  expiresAt : Int
  maxDownloads : Nat
  downloadCount : Nat
  accessCode : Option String
  accessToken : Option String
  payload : RemoteClipPayload
  directUrl : Option String
deriving DecidableEq

/-- The ordering used by the store's `sort((a, b) => b.createdAt - a.createdAt)`:
`a` may come before `b` exactly when `b.createdAt ≤ a.createdAt`
(newest-created-first). -/
def clipOrder (a b : RemoteClip) : Prop := b.createdAt ≤ a.createdAt

instance : DecidableRel clipOrder := fun a b => by
  unfold clipOrder; infer_instance

instance : IsTotal RemoteClip clipOrder :=
  ⟨fun a b => le_total b.createdAt a.createdAt⟩

instance : IsTrans RemoteClip clipOrder :=
  ⟨fun _ _ _ hab hbc => le_trans hbc hab⟩

/-- Operation `setRemoteClips` from `useClipboardStore.ts`:
`[...clips].sort((a, b) => b.createdAt - a.createdAt)`. -/
def setRemoteClips (clips : List RemoteClip) : List RemoteClip :=
  clips.insertionSort clipOrder

/-- Operation `upsertRemoteClip` from `useClipboardStore.ts`: drop any entry with the
same id, prepend the new clip, re-sort newest-first. -/
def upsertRemoteClip (clip : RemoteClip) (state : List RemoteClip) : List RemoteClip :=
  (clip :: state.filter (fun item => item.id ≠ clip.id)).insertionSort clipOrder

/-- Operation `updateRemoteClip` from `useClipboardStore.ts`: replace the entry whose id
equals `clipId` by `clip`, leaving other entries unchanged. -/
def updateRemoteClip (clipId : String) (clip : RemoteClip)
    (state : List RemoteClip) : List RemoteClip :=
  state.map (fun item => if item.id = clipId then clip else item)

/-- Operation `removeRemoteClip` from `useClipboardStore.ts`. -/
def removeRemoteClip (clipId : String) (state : List RemoteClip) : List RemoteClip :=
  state.filter (fun item => item.id ≠ clipId)

/-! Constants from `App.tsx`. -/

def MIN_EXPIRY_HOURS : ℚ := 1
def MAX_EXPIRY_HOURS : ℚ := 120
def MAX_FILE_SIZE_BYTES : Nat := 50 * 1024 * 1024
def TOKEN_EXPIRY_MS : Int := 720 * 60 * 60 * 1000

/-- The per-clip liveness test from `hasActiveClips` in `App.tsx`:
`clip.expiresAt > now && clip.downloadCount < clip.maxDownloads`. -/
def clipActive (clip : RemoteClip) (now : Int) : Bool :=
  decide (now < clip.expiresAt) && decide (clip.downloadCount < clip.maxDownloads)

/-- Predicate `hasActiveClips` from `App.tsx`: `remoteClips.some (clip => ...)`. -/
def hasActiveClips (clips : List RemoteClip) (now : Int) : Bool :=
  clips.any (fun clip => clipActive clip now)

/-- Expression `settings.tokenLastUsedAt ?? settings.tokenUpdatedAt` from the
token-expiry effect in `App.tsx`. -/
def tokenExpiryReference (lastUsedAt updatedAt : Option Int) : Option Int :=
  match lastUsedAt with
  | some t => some t
  | none => updatedAt

/-- The destruction test of the token-expiry effect in `App.tsx`:
`now - reference >= TOKEN_EXPIRY_MS`. -/
def tokenExpired (now reference : Int) : Bool :=
  decide (TOKEN_EXPIRY_MS ≤ now - reference)

/-- The ttl range check in `handleCreateRemoteClip` (`App.tsx`): reject when
`expiresInHours < MIN_EXPIRY_HOURS || expiresInHours > MAX_EXPIRY_HOURS`. -/
def expiryHoursRejected (expiresInHours : ℚ) : Bool :=
  decide (expiresInHours < MIN_EXPIRY_HOURS) || decide (expiresInHours > MAX_EXPIRY_HOURS)

/-- The maxDownloads range check in `handleCreateRemoteClip` (`App.tsx`):
reject when `maxDownloads < 1 || maxDownloads > 500`. -/
def maxDownloadsRejected (maxDownloads : Int) : Bool :=
  decide (maxDownloads < 1) || decide (maxDownloads > 500)

/-- The combined range validation of `handleCreateRemoteClip`: the creation is
stopped when either range check fires. -/
def createLimitsRejected (expiresInHours : ℚ) (maxDownloads : Int) : Bool :=
  expiryHoursRejected expiresInHours || maxDownloadsRejected maxDownloads

/-- The short-code test `/^\d{5}$/.test(activeShortCode)` from
`handleCreateRemoteClip` (`App.tsx`): an anchored match of exactly five
ASCII-digit characters. -/
def shortCodeMatches (s : String) : Bool :=
  match s.data with
  | [a, b, c, d, e] => a.isDigit && b.isDigit && c.isDigit && d.isDigit && e.isDigit
  | _ => false

/-- The token checks of `handleCreateRemoteClip` (`App.tsx`) that depend only
on the trimmed token string: `if (!tokenValue) { ... return; }` and
`if (tokenValue.length < 7) { ... return; }`.  `true` means neither check
stops the creation. -/
def createTokenCheckPasses (tokenValue : String) : Bool :=
  !(tokenValue = "") && !(decide (tokenValue.length < 7))

/-- The token check of `handleSaveSettings` (`App.tsx`):
`if (trimmedToken && trimmedToken.length < 7) { ... return; }` — a JS
truthiness test, so the empty string skips the length check.  `true` means
the save is not stopped. -/
def saveTokenCheckPasses (trimmedToken : String) : Bool :=
  !((!(trimmedToken = "")) && decide (trimmedToken.length < 7))

/-- The file size check of `handleFileSelect` (`App.tsx`): reject when
`file.size > MAX_FILE_SIZE_BYTES`. -/
def fileSizeRejected (size : Nat) : Bool :=
  decide (MAX_FILE_SIZE_BYTES < size)

/-! `src/utils/generators.ts`. -/

/-- The digit alphabet of `generators.ts`. -/
def digits : String := "0123456789"

theorem digits_data : digits.data =
    ['0', '1', '2', '3', '4', '5', '6', '7', '8', '9'] := rfl

theorem digits_data_length : digits.data.length = 10 := rfl

/-- Function `generateAccessCode` from `generators.ts`: build a string of `length`
characters, each picked from `digits` at index
`Math.floor(Math.random() * digits.length)`.  The random source is modelled
as a function `r` giving, for each loop index, the in-range draw
`⌊random · 10⌋ : Fin 10`. -/
def generateAccessCode (r : Nat → Fin 10) (length : Nat) : String :=
  ⟨(List.range length).map (fun i => digits.data.get (Fin.cast digits_data_length.symm (r i)))⟩

/-- The default-argument call `generateAccessCode()` used for short codes. -/
def generateShortCode (r : Nat → Fin 10) : String :=
  generateAccessCode r 5

/-! Server-side store.  The repository ships only the client; the FastAPI
backend holding the clip entities is not under `src/`, so the server-side
operations are modelled from the spec. -/

/-- Modelled from the spec: the server-side `Clip` entity (§3), the part of
it these claims need.  `ownerEnvironmentId` scopes listing; `content` stands
for the payload bytes. -/
structure ServerClip where
  id : String
  ownerEnvironmentId : String
  createdAt : Int
  expiresAt : Int
  maxDownloads : Nat
  downloadCount : Nat
  content : String
deriving DecidableEq

/-- Modelled from the spec: a clip is destroyed when
`now ≥ expiresAt` OR `downloadCount ≥ maxDownloads` (§3 lifecycle). -/
def serverClipDestroyed (c : ServerClip) (now : Int) : Prop :=
  c.expiresAt ≤ now ∨ c.maxDownloads ≤ c.downloadCount

instance (c : ServerClip) (now : Int) : Decidable (serverClipDestroyed c now) := by
  unfold serverClipDestroyed; infer_instance

/-- Newest-created-first order on server clips (§4.2 `listByOwner`). -/
def serverClipOrder (a b : ServerClip) : Prop := b.createdAt ≤ a.createdAt

instance : DecidableRel serverClipOrder := fun a b => by
  unfold serverClipOrder; infer_instance

instance : IsTotal ServerClip serverClipOrder :=
  ⟨fun a b => le_total b.createdAt a.createdAt⟩

instance : IsTrans ServerClip serverClipOrder :=
  ⟨fun _ _ _ hab hbc => le_trans hbc hab⟩

/-- Modelled from the spec: `listByOwner(environmentId)` (§4.2) — only
non-destroyed clips whose `ownerEnvironmentId` matches, newest-created-first. -/
def listByOwner (environmentId : String) (now : Int)
    (store : List ServerClip) : List ServerClip :=
  (store.filter (fun c =>
      decide (c.ownerEnvironmentId = environmentId) &&
      !(decide (serverClipDestroyed c now)))).insertionSort serverClipOrder

/-- Modelled from the spec: `accessAndMaybeDestroy` / `resolveAndConsume`
(§4.2, §6), the atomic serve-and-count step on one clip's slot.  Atomically:
re-check the clip is still live, increment `downloadCount`, and delete the
clip in the same step when the new count reaches `maxDownloads` or the time
limit has passed; the request that causes destruction still receives the
content.  Returns `(served clip, state after)`; `none` as first component is
`NotFoundError`. -/
def resolveAndConsume (now : Int) :
    Option ServerClip → Option ServerClip × Option ServerClip
  | none => (none, none)
  | some c =>
    if now < c.expiresAt ∧ c.downloadCount < c.maxDownloads then
      let c' : ServerClip := { c with downloadCount := c.downloadCount + 1 }
      if c.maxDownloads ≤ c'.downloadCount ∨ c.expiresAt ≤ now then
        (some c', none)
      else
        (some c', some c')
    else
      (none, some c)

/-! Sequences of client store operations, for the id-uniqueness invariant. -/

/-- One call into the zustand store of `useClipboardStore.ts`. -/
inductive StoreOp where
  | setClips (clips : List RemoteClip)
  | upsert (clip : RemoteClip)
  | update (clipId : String) (clip : RemoteClip)
  | remove (clipId : String)

/-- Dispatch one store call. -/
def applyOp (op : StoreOp) (state : List RemoteClip) : List RemoteClip :=
  match op with
  | .setClips clips => setRemoteClips clips
  | .upsert clip => upsertRemoteClip clip state
  | .update clipId clip => updateRemoteClip clipId clip state
  | .remove clipId => removeRemoteClip clipId state

/-- Run a sequence of store calls from the store's initial state `[]`. -/
def runOps (ops : List StoreOp) : List RemoteClip :=
  ops.foldl (fun state op => applyOp op state) []

/-- The side condition on one store call under which id-uniqueness is
preserved: a `setClips` input has pairwise-distinct ids, and an `update` is
called with a replacement clip whose id equals the looked-up `clipId` (as
`App.tsx` in fact does in `refreshRemoteClip`). -/
def opConstraint : StoreOp → Prop
  | .setClips clips => (clips.map (fun c => c.id)).Nodup
  | .update clipId clip => clip.id = clipId
  | .upsert _ => True
  | .remove _ => True

instance (op : StoreOp) : Decidable (opConstraint op) := by
  cases op <;> (unfold opConstraint; infer_instance)

/-- A sequence of store calls is well formed when each call satisfies
`opConstraint`. -/
def opsWellFormed (ops : List StoreOp) : Prop :=
  ∀ op ∈ ops, opConstraint op

instance (ops : List StoreOp) : Decidable (opsWellFormed ops) :=
  List.decidableBAll _ ops

/-! Claim theorems. -/

/-- C2: a clip is live (active) iff `now < expiresAt` and
`downloadCount < maxDownloads`; it counts as destroyed exactly when
`now ≥ expiresAt` or `downloadCount ≥ maxDownloads`, whichever is reached
first; `hasActiveClips` reports whether some listed clip is live. -/
theorem clip_liveness_characterisation (clip : RemoteClip) (now : Int)
    (clips : List RemoteClip) :
    (clipActive clip now = true ↔
      now < clip.expiresAt ∧ clip.downloadCount < clip.maxDownloads) ∧
    (clipActive clip now = false ↔
      clip.expiresAt ≤ now ∨ clip.maxDownloads ≤ clip.downloadCount) ∧
    (hasActiveClips clips now = true ↔
      ∃ c ∈ clips, now < c.expiresAt ∧ c.downloadCount < c.maxDownloads) := by
  refine ⟨?_, ?_, ?_⟩
  · simp [clipActive]
  · simp [clipActive]
    omega
  · simp [hasActiveClips, clipActive]

/-- C3: with `expiryReference = lastUsedAt ?? updatedAt`, a token is live
(not expired) iff `now − expiryReference < 720h`; a token registered at `t0`
and never used afterwards has reference `t0`, is still live at
`t0 + 719h59m`, and is expired at exactly `t0 + 720h`. -/
theorem token_ttl_arithmetic (now reference t0 : Int) (updatedAt : Option Int) :
    (tokenExpired now reference = false ↔ now - reference < TOKEN_EXPIRY_MS) ∧
    tokenExpiryReference none (some t0) = some t0 ∧
    (∀ l, tokenExpiryReference (some l) updatedAt = some l) ∧
    tokenExpired (t0 + 719 * 3600000 + 59 * 60000) t0 = false ∧
    tokenExpired (t0 + 720 * 3600000) t0 = true := by
  refine ⟨?_, rfl, fun l => rfl, ?_, ?_⟩
  all_goals simp [tokenExpired, TOKEN_EXPIRY_MS]
  all_goals omega

/-- C4: the creation-time range checks reject exactly the requests whose ttl
in hours lies outside `[1, 120]` or whose `maxDownloads` lies outside
`[1, 500]`; requests with both values in range pass these two checks. -/
theorem create_limits_validation (expiresInHours : ℚ) (maxDownloads : Int) :
    (createLimitsRejected expiresInHours maxDownloads = true ↔
      (expiresInHours < 1 ∨ 120 < expiresInHours ∨
        maxDownloads < 1 ∨ 500 < maxDownloads)) ∧
    (createLimitsRejected expiresInHours maxDownloads = false ↔
      (1 ≤ expiresInHours ∧ expiresInHours ≤ 120 ∧
        1 ≤ maxDownloads ∧ maxDownloads ≤ 500)) := by
  constructor
  · simp [createLimitsRejected, expiryHoursRejected, maxDownloadsRejected,
      MIN_EXPIRY_HOURS, MAX_EXPIRY_HOURS]
    tauto
  · simp [createLimitsRejected, expiryHoursRejected, maxDownloadsRejected,
      MIN_EXPIRY_HOURS, MAX_EXPIRY_HOURS, not_lt]
    tauto

/-- C9: a file offered at creation is rejected by the size check exactly when
its size exceeds 50 MiB; a file of exactly 50 MiB or less passes the check. -/
theorem file_size_limit (size : Nat) :
    (fileSizeRejected size = true ↔ 50 * 1024 * 1024 < size) ∧
    (fileSizeRejected size = false ↔ size ≤ 50 * 1024 * 1024) := by
  constructor
  · simp [fileSizeRejected, MAX_FILE_SIZE_BYTES]
  · simp [fileSizeRejected, MAX_FILE_SIZE_BYTES, not_lt]

/-- The anchored five-digit match, characterised. -/
theorem shortCodeMatches_iff (s : String) :
    shortCodeMatches s = true ↔ s.length = 5 ∧ ∀ c ∈ s.data, c.isDigit = true := by
  obtain ⟨data⟩ := s
  rcases data with _ | ⟨a, _ | ⟨b, _ | ⟨c, _ | ⟨d, _ | ⟨e, _ | ⟨f, t⟩⟩⟩⟩⟩⟩ <;>
    simp [shortCodeMatches, String.length, and_assoc]

/-- C5: the short-code test accepts a string iff it consists of exactly five
ASCII-digit characters. -/
theorem short_code_validation (s : String) :
    shortCodeMatches s = true ↔ s.length = 5 ∧ ∀ c ∈ s.data, c.isDigit = true :=
  shortCodeMatches_iff s

/-- C6 counterexample: at settings save, the empty trimmed token passes the
token check even though its length is below 7 (it clears the token), so it is
not true that token validation fails whenever the trimmed length is below 7. -/
theorem token_validation_claim_false :
    ¬ (∀ s : String, saveTokenCheckPasses s = true ↔ 7 ≤ s.length) := by
  intro h
  have h0 : (7 : Nat) ≤ "".length := (h "").mp (by decide)
  exact absurd h0 (by decide)

/-- C6 amended: at clip creation the token checks pass exactly the trimmed
tokens of length ≥ 7 (the empty token is stopped by a separate
missing-token check); at settings save the check passes exactly the empty
trimmed token (which clears the setting) and the trimmed tokens of
length ≥ 7. -/
theorem token_validation_amended :
    (∀ s : String, createTokenCheckPasses s = true ↔ 7 ≤ s.length) ∧
    (∀ s : String, saveTokenCheckPasses s = true ↔ (s = "" ∨ 7 ≤ s.length)) := by
  constructor
  · intro s
    simp only [createTokenCheckPasses, Bool.and_eq_true, Bool.not_eq_true',
      decide_eq_false_iff_not, not_lt]
    constructor
    · exact fun h => h.2
    · intro h
      refine ⟨fun he => ?_, h⟩
      rw [he] at h
      exact absurd h (by decide)
  · intro s
    by_cases he : s = ""
    · subst he
      decide
    · simp [saveTokenCheckPasses, he, not_lt]

/-- C7: every short code produced by `generateAccessCode` at the default
length 5 is a string of exactly five ASCII digits, and therefore passes the
5-digit short-code validation. -/
theorem generate_short_code_valid (r : Nat → Fin 10) :
    (generateShortCode r).length = 5 ∧ shortCodeMatches (generateShortCode r) = true := by
  have hd : ∀ j : Fin 10,
      (digits.data.get (Fin.cast digits_data_length.symm j)).isDigit = true := by decide
  have hdata : (generateShortCode r).data =
      (List.range 5).map
        (fun i => digits.data.get (Fin.cast digits_data_length.symm (r i))) := rfl
  constructor
  · rfl
  · rw [shortCodeMatches_iff]
    refine ⟨rfl, ?_⟩
    intro c hc
    rw [hdata] at hc
    obtain ⟨i, _, rfl⟩ := List.mem_map.1 hc
    exact hd (r i)

/-- C1: on a live clip with `maxDownloads − downloadCount = 1`, the first
`resolveAndConsume` returns the content and destroys the clip in the same
atomic step, the second receives `NotFoundError` (`none`), and the download
count never exceeds `maxDownloads`.  The two orders of two concurrent
requests are the two serializations of the same atomic step, so this covers
both interleavings: never two successes and never an over-count. -/
theorem resolve_and_consume_exactly_once (c : ServerClip) (now : Int)
    (hlive : now < c.expiresAt ∧ c.downloadCount < c.maxDownloads)
    (hgap : c.maxDownloads - c.downloadCount = 1) :
    resolveAndConsume now (some c) =
      (some { c with downloadCount := c.downloadCount + 1 }, none) ∧
    resolveAndConsume now (resolveAndConsume now (some c)).2 = (none, none) ∧
    c.downloadCount + 1 ≤ c.maxDownloads := by
  have hmax : c.maxDownloads = c.downloadCount + 1 := by omega
  have h1 : resolveAndConsume now (some c) =
      (some { c with downloadCount := c.downloadCount + 1 }, none) := by
    simp only [resolveAndConsume, if_pos hlive]
    rw [if_pos]
    left
    omega
  refine ⟨h1, ?_, by omega⟩
  rw [h1]
  rfl

/-- Concrete clip used to witness `resolve_and_consume_exactly_once`. -/
def sampleServerClip : ServerClip :=
  { id := "clip-1", ownerEnvironmentId := "env-1", createdAt := 0,
    expiresAt := 10, maxDownloads := 1, downloadCount := 0, content := "hello" }

/-- Witness for C1 at a concrete clip with `maxDownloads = 1`,
`downloadCount = 0`, evaluated at `now = 5`. -/
theorem resolve_and_consume_exactly_once_witness :
    ((5 : Int) < sampleServerClip.expiresAt ∧
      sampleServerClip.downloadCount < sampleServerClip.maxDownloads) ∧
    (resolveAndConsume 5 (some sampleServerClip) =
        (some { sampleServerClip with
                  downloadCount := sampleServerClip.downloadCount + 1 }, none) ∧
      resolveAndConsume 5 (resolveAndConsume 5 (some sampleServerClip)).2 = (none, none) ∧
      sampleServerClip.downloadCount + 1 ≤ sampleServerClip.maxDownloads) :=
  ⟨by decide, resolve_and_consume_exactly_once sampleServerClip 5 (by decide) (by decide)⟩

/-- C8: owner listings are newest-created-first.  The store's
`setRemoteClips` sorts by `createdAt` in non-increasing order and only
reorders (so it contains exactly the clips it was given), `upsertRemoteClip`
re-establishes the same order, and the server's `listByOwner` returns only
the owner's non-destroyed clips, newest-created-first. -/
theorem owner_listing_newest_first (environmentId : String) (now : Int)
    (store : List ServerClip) (clips : List RemoteClip) (clip : RemoteClip)
    (state : List RemoteClip) :
    (setRemoteClips clips).Pairwise (fun a b => b.createdAt ≤ a.createdAt) ∧
    (setRemoteClips clips).Perm clips ∧
    (upsertRemoteClip clip state).Pairwise (fun a b => b.createdAt ≤ a.createdAt) ∧
    (listByOwner environmentId now store).Pairwise
      (fun a b => b.createdAt ≤ a.createdAt) ∧
    (∀ c ∈ listByOwner environmentId now store,
      c.ownerEnvironmentId = environmentId ∧ ¬ serverClipDestroyed c now) := by
  refine ⟨List.sorted_insertionSort clipOrder clips,
    List.perm_insertionSort clipOrder clips,
    List.sorted_insertionSort clipOrder _,
    List.sorted_insertionSort serverClipOrder _, ?_⟩
  intro c hc
  have hmem := (List.mem_insertionSort serverClipOrder).1 hc
  have hf := List.mem_filter.1 hmem
  simpa using hf.2

/-! Helper lemmas for the id-uniqueness invariant of the client store. -/

theorem nodup_ids_insertionSort (l : List RemoteClip)
    (h : (l.map (fun c => c.id)).Nodup) :
    ((l.insertionSort clipOrder).map (fun c => c.id)).Nodup :=
  (((List.perm_insertionSort clipOrder l).map (fun c => c.id)).nodup_iff).2 h

theorem nodup_ids_filter (p : RemoteClip → Bool) (s : List RemoteClip)
    (h : (s.map (fun c => c.id)).Nodup) :
    ((s.filter p).map (fun c => c.id)).Nodup :=
  ((s.filter_sublist).map (fun c => c.id)).nodup h

theorem nodup_ids_upsert (clip : RemoteClip) (s : List RemoteClip)
    (h : (s.map (fun c => c.id)).Nodup) :
    ((upsertRemoteClip clip s).map (fun c => c.id)).Nodup := by
  apply nodup_ids_insertionSort
  rw [List.map_cons, List.nodup_cons]
  refine ⟨?_, nodup_ids_filter _ s h⟩
  intro hmem
  obtain ⟨x, hx, hxid⟩ := List.mem_map.1 hmem
  have := (List.mem_filter.1 hx).2
  simp at this
  exact this hxid

theorem ids_update_of_matching (clipId : String) (clip : RemoteClip)
    (hid : clip.id = clipId) (s : List RemoteClip) :
    (updateRemoteClip clipId clip s).map (fun c => c.id) =
      s.map (fun c => c.id) := by
  unfold updateRemoteClip
  rw [List.map_map]
  apply List.map_congr_left
  intro a _
  by_cases hx : a.id = clipId
  · simp [hx, hid]
  · simp [hx]

theorem nodup_ids_applyOp (op : StoreOp) (s : List RemoteClip)
    (hs : (s.map (fun c => c.id)).Nodup) (hop : opConstraint op) :
    ((applyOp op s).map (fun c => c.id)).Nodup := by
  cases op with
  | setClips clips => exact nodup_ids_insertionSort clips hop
  | upsert clip => exact nodup_ids_upsert clip s hs
  | update clipId clip =>
    show ((updateRemoteClip clipId clip s).map (fun c => c.id)).Nodup
    rw [ids_update_of_matching clipId clip hop s]
    exact hs
  | remove clipId => exact nodup_ids_filter _ s hs

theorem nodup_ids_foldl (ops : List StoreOp) (s : List RemoteClip)
    (hs : (s.map (fun c => c.id)).Nodup) (h : opsWellFormed ops) :
    (((ops.foldl (fun state op => applyOp op state) s)).map (fun c => c.id)).Nodup := by
  induction ops generalizing s with
  | nil => simpa using hs
  | cons op rest ih =>
    rw [List.foldl_cons]
    exact ih (applyOp op s)
      (nodup_ids_applyOp op s hs (h op (List.mem_cons_self op rest)))
      (fun o ho => h o (List.mem_cons_of_mem op ho))

theorem length_filter_ne_of_mem (cid : String) (s : List RemoteClip)
    (hs : (s.map (fun c => c.id)).Nodup) (hmem : cid ∈ s.map (fun c => c.id)) :
    (s.filter (fun item => item.id ≠ cid)).length + 1 = s.length := by
  induction s with
  | nil => simp at hmem
  | cons x t ih =>
    rw [List.map_cons, List.nodup_cons] at hs
    rcases List.mem_cons.1 hmem with hx | ht
    · have hxid : x.id = cid := hx.symm
      have hfilter_t : t.filter (fun item => item.id ≠ cid) = t := by
        apply List.filter_eq_self.2
        intro y hy
        simp only [ne_eq, decide_eq_true_eq]
        intro hyid
        have hmem2 : y.id ∈ t.map (fun c => c.id) :=
          List.mem_map_of_mem (fun c => c.id) hy
        rw [hyid, ← hxid] at hmem2
        exact hs.1 hmem2
      simp [List.filter_cons, hxid, hfilter_t]
      intro y hy hyid
      have hmem2 : y.id ∈ t.map (fun c => c.id) :=
        List.mem_map_of_mem (fun c => c.id) hy
      rw [hyid, ← hxid] at hmem2
      exact hs.1 hmem2
    · have hxid : ¬ x.id = cid := by
        intro hc
        apply hs.1
        rw [hc]
        exact ht
      rw [List.filter_cons, if_pos (by simp [hxid])]
      have hrec := ih hs.2 ht
      simp only [List.length_cons]
      omega

/-- Concrete clips for the C10 counterexample: two clips with distinct ids. -/
def sampleClipA : RemoteClip :=
  { id := "a", type := .text, createdAt := 2, expiresAt := 10, maxDownloads := 1,
    downloadCount := 0, accessCode := none, accessToken := none,
    payload := { text := some "x", file := none }, directUrl := none }

def sampleClipB : RemoteClip :=
  { id := "b", type := .text, createdAt := 1, expiresAt := 10, maxDownloads := 1,
    downloadCount := 0, accessCode := none, accessToken := none,
    payload := { text := some "y", file := none }, directUrl := none }

/-- C10 counterexample: starting from the empty store, `setRemoteClips` with
two distinct-id clips followed by `updateRemoteClip "a"` with a replacement
clip whose id is `"b"` leaves two entries with the same id `"b"` — so the
invariant fails for unrestricted `updateRemoteClip` calls. -/
theorem store_ids_can_duplicate :
    ¬ ((runOps [StoreOp.setClips [sampleClipA, sampleClipB],
          StoreOp.update "a" sampleClipB]).map (fun c => c.id)).Nodup := by
  decide

/-- C10 amended: after any sequence of store operations from the empty list,
no two entries of `remoteClips` share an id, provided every `setRemoteClips`
input has distinct ids and every `updateRemoteClip clipId clip` call has
`clip.id = clipId` (as the app's only call site does); moreover
`upsertRemoteClip` with an id already present in a duplicate-free state
replaces the entry instead of adding one (the length is unchanged). -/
theorem store_ids_nodup (ops : List StoreOp) (h : opsWellFormed ops) :
    ((runOps ops).map (fun c => c.id)).Nodup ∧
    (∀ (clip : RemoteClip) (state : List RemoteClip),
      (state.map (fun c => c.id)).Nodup →
      clip.id ∈ state.map (fun c => c.id) →
      (upsertRemoteClip clip state).length = state.length) := by
  constructor
  · exact nodup_ids_foldl ops [] (by simp) h
  · intro clip state hnd hmem
    unfold upsertRemoteClip
    rw [(List.perm_insertionSort clipOrder _).length_eq, List.length_cons]
    exact length_filter_ne_of_mem clip.id state hnd hmem

/-- Witness for C10 at a concrete well-formed operation sequence. -/
theorem store_ids_nodup_witness :
    opsWellFormed [StoreOp.setClips [sampleClipA, sampleClipB],
      StoreOp.upsert sampleClipB, StoreOp.update "b" sampleClipB,
      StoreOp.remove "a"] ∧
    (((runOps [StoreOp.setClips [sampleClipA, sampleClipB],
        StoreOp.upsert sampleClipB, StoreOp.update "b" sampleClipB,
        StoreOp.remove "a"]).map (fun c => c.id)).Nodup ∧
      (∀ (clip : RemoteClip) (state : List RemoteClip),
        (state.map (fun c => c.id)).Nodup →
        clip.id ∈ state.map (fun c => c.id) →
        (upsertRemoteClip clip state).length = state.length)) :=
  ⟨by decide, store_ids_nodup _ (by decide)⟩

end SuperClipboard
